import Mathlib

/-!
Verification of the 2D particle simulation engine in `src/wasm/src/lib.rs`.

The engine's `f32` arithmetic is modelled by exact rational arithmetic (`ℚ`);
`f32::sqrt` is modelled by `ratSqrt`, which agrees with the mathematical square
root exactly on rationals that are squares of rationals.  Statements that
depend on the square-root value carry an explicit exactness hypothesis
(`pairSqrtOk` / `sqrtExactPass`).
-/

/-- Mirrors `struct Particle` (lib.rs): position, velocity, radius, mass, color. -/
structure Particle where
  x : ℚ
  y : ℚ
  vx : ℚ
  vy : ℚ
  radius : ℚ
  mass : ℚ
  color : ℕ
deriving DecidableEq

/-- Mirrors `Particle::new`: color defaults to opaque white `0xFFFFFF`. -/
def Particle.new (x y vx vy radius mass : ℚ) : Particle :=
  ⟨x, y, vx, vy, radius, mass, 0xFFFFFF⟩

/-- Mirrors `struct ParticleSystem` (lib.rs). -/
structure ParticleSystem where
  particles : List Particle
  width : ℚ
  height : ℚ
  gravity_x : ℚ
  gravity_y : ℚ
  damping : ℚ
  restitution : ℚ
  time_step : ℚ
deriving DecidableEq

/-- Mirrors `ParticleSystem::new(width, height)`: bounds stored as given,
gravity `(0, 9.81 * 10)`, damping `0.99`, restitution `0.8`, time step `1/60`. -/
def ParticleSystem.new (width height : ℚ) : ParticleSystem :=
  ⟨[], width, height, 0, 9.81 * 10, 0.99, 0.8, 1 / 60⟩

/-- Mirrors `ParticleSystem::add_particle`: pushes a particle, returns the new
state together with the returned index (`len - 1` after the push, i.e. the old
length). -/
def ParticleSystem.add_particle (s : ParticleSystem) (x y vx vy radius mass : ℚ) :
    ParticleSystem × ℕ :=
  ({ s with particles := s.particles ++ [Particle.new x y vx vy radius mass] },
    s.particles.length)

/-- Mirrors `ParticleSystem::get_particle_count`. -/
def ParticleSystem.get_particle_count (s : ParticleSystem) : ℕ :=
  s.particles.length

/-- Mirrors `ParticleSystem::set_gravity`. -/
def ParticleSystem.set_gravity (s : ParticleSystem) (x y : ℚ) : ParticleSystem :=
  { s with gravity_x := x, gravity_y := y }

/-- Mirrors `ParticleSystem::set_damping`: `damping.max(0.0).min(1.0)`. -/
def ParticleSystem.set_damping (s : ParticleSystem) (damping : ℚ) : ParticleSystem :=
  { s with damping := min (max damping 0) 1 }

/-- Mirrors `ParticleSystem::set_restitution`: `restitution.max(0.0).min(1.0)`. -/
def ParticleSystem.set_restitution (s : ParticleSystem) (restitution : ℚ) : ParticleSystem :=
  { s with restitution := min (max restitution 0) 1 }

/-- Mirrors `ParticleSystem::set_time_step`: `dt.max(0.001).min(0.1)`. -/
def ParticleSystem.set_time_step (s : ParticleSystem) (dt : ℚ) : ParticleSystem :=
  { s with time_step := min (max dt 0.001) 0.1 }

/-- Mirrors `ParticleSystem::set_bounds`: each dimension clamped to a minimum
of `100.0`. -/
def ParticleSystem.set_bounds (s : ParticleSystem) (width height : ℚ) : ParticleSystem :=
  { s with width := max width 100, height := max height 100 }

/-- Mirrors `ParticleSystem::set_particle_position`: guarded by
`index < self.particles.len()`, otherwise a no-op. -/
def ParticleSystem.set_particle_position (s : ParticleSystem) (index : ℕ) (x y : ℚ) :
    ParticleSystem :=
  match s.particles[index]? with
  | some p => { s with particles := s.particles.set index { p with x := x, y := y } }
  | none => s

/-- Mirrors `ParticleSystem::set_particle_velocity`. -/
def ParticleSystem.set_particle_velocity (s : ParticleSystem) (index : ℕ) (vx vy : ℚ) :
    ParticleSystem :=
  match s.particles[index]? with
  | some p => { s with particles := s.particles.set index { p with vx := vx, vy := vy } }
  | none => s

/-- Mirrors `ParticleSystem::add_force_to_particle`: acceleration `f / mass`
applied over the stored default `time_step`. -/
def ParticleSystem.add_force_to_particle (s : ParticleSystem) (index : ℕ) (fx fy : ℚ) :
    ParticleSystem :=
  match s.particles[index]? with
  | some p =>
    let ax := fx / p.mass
    let ay := fy / p.mass
    { s with particles := s.particles.set index ({ p with vx := p.vx + ax * s.time_step, vy := p.vy + ay * s.time_step }) }
  | none => s

/-- Mirrors `ParticleSystem::clear_particles`. -/
def ParticleSystem.clear_particles (s : ParticleSystem) : ParticleSystem :=
  { s with particles := [] }

/-- Mirrors `ParticleSystem::get_kinetic_energy`: accumulates
`0.5 * mass * (vx*vx + vy*vy)` over all particles. -/
def ParticleSystem.get_kinetic_energy (s : ParticleSystem) : ℚ :=
  s.particles.foldl
    (fun total_energy particle =>
      total_energy + 0.5 * particle.mass *
        (particle.vx * particle.vx + particle.vy * particle.vy)) 0

/-- Mirrors `ParticleSystem::get_bounds`: `[0, 0, width, height]`. -/
def ParticleSystem.get_bounds (s : ParticleSystem) : List ℚ :=
  [0, 0, s.width, s.height]

/-- Newton iteration for the integer square root, with explicit fuel so that
it reduces inside the kernel. -/
def natSqrtIter (n : ℕ) : ℕ → ℕ → ℕ
  | guess, fuel + 1 =>
    let next := (guess + n / guess) / 2
    if next < guess then natSqrtIter n next fuel else guess
  | guess, 0 => guess

/-- Integer square root (round toward zero), kernel-reducible. -/
def natSqrt (n : ℕ) : ℕ :=
  if n ≤ 1 then n else natSqrtIter n (n / 2) n

/-- Model of `f32::sqrt` over exact rationals: exact whenever the argument is
the square of a rational (the numerator and denominator of the reduced form
are then perfect squares). -/
def ratSqrt (q : ℚ) : ℚ :=
  (natSqrt q.num.toNat : ℚ) / (natSqrt q.den : ℚ)

/-- The body of the inner collision loop of `ParticleSystem::handle_collisions`,
acting on the snapshots `p1`, `p2` read at the top of the iteration: `none`
when the pair is skipped (`distance >= min_distance` or `distance <= 0`),
otherwise the updated pair (positions separated by half the overlap each;
velocities additionally changed by the impulse unless `dvn > 0`). -/
def collidePair (restitution : ℚ) (p1 p2 : Particle) : Option (Particle × Particle) :=
  let dx := p2.x - p1.x
  let dy := p2.y - p1.y
  let distance := ratSqrt (dx * dx + dy * dy)
  let min_distance := p1.radius + p2.radius
  if distance < min_distance ∧ 0 < distance then
    let nx := dx / distance
    let ny := dy / distance
    let overlap := min_distance - distance
    let separation := overlap * 0.5
    let p1s := { p1 with x := p1.x - nx * separation, y := p1.y - ny * separation }
    let p2s := { p2 with x := p2.x + nx * separation, y := p2.y + ny * separation }
    let dvx := p2.vx - p1.vx
    let dvy := p2.vy - p1.vy
    let dvn := dvx * nx + dvy * ny
    if 0 < dvn then
      some (p1s, p2s)
    else
      let total_mass := p1.mass + p2.mass
      let impulse := 2 * dvn / total_mass * restitution
      some
        ({ p1s with vx := p1.vx + impulse * p2.mass * nx, vy := p1.vy + impulse * p2.mass * ny },
         { p2s with vx := p2.vx - impulse * p1.mass * nx, vy := p2.vy - impulse * p1.mass * ny })
  else
    none

/-- One iteration of the nested loops of `handle_collisions`: read the two
snapshots at indices `ij.1 < ij.2`, then write back the resolved pair. -/
def resolvePair (restitution : ℚ) (ps : List Particle) (ij : ℕ × ℕ) : List Particle :=
  match ps[ij.1]?, ps[ij.2]? with
  | some p1, some p2 =>
    match collidePair restitution p1 p2 with
    | some (q1, q2) => (ps.set ij.1 q1).set ij.2 q2
    | none => ps
  | _, _ => ps

/-- The index pairs visited by `handle_collisions`, in loop order:
`i` ascending over `0..n`, `j` ascending over `i+1..n`. -/
def pairList (n : ℕ) : List (ℕ × ℕ) :=
  (List.range n).flatMap (fun i => ((List.range n).drop (i + 1)).map (fun j => (i, j)))

/-- Mirrors `ParticleSystem::handle_collisions`: the sequential
read/write-through pass over all pairs in loop order. -/
def ParticleSystem.handle_collisions (s : ParticleSystem) : ParticleSystem :=
  { s with particles :=
      (pairList s.particles.length).foldl (resolvePair s.restitution) s.particles }

/-- Mirrors the body of `ParticleSystem::update` run with a given effective
step `actual_dt`: integration loop, then boundary loop, then
`handle_collisions`. -/
def ParticleSystem.stepWith (s : ParticleSystem) (actual_dt : ℚ) : ParticleSystem :=
  let s1 := { s with particles := s.particles.map (fun (particle : Particle) =>
      let vx1 := particle.vx + s.gravity_x * actual_dt
      let vy1 := particle.vy + s.gravity_y * actual_dt
      let vx2 := vx1 * s.damping
      let vy2 := vy1 * s.damping
      ({ particle with vx := vx2, vy := vy2, x := particle.x + vx2 * actual_dt, y := particle.y + vy2 * actual_dt })) }
  let s2 := { s1 with particles := s1.particles.map (fun (particle : Particle) =>
      let particle :=
        if particle.x - particle.radius < 0 then
          { particle with x := particle.radius, vx := -particle.vx * s.restitution }
        else if s.width < particle.x + particle.radius then
          { particle with x := s.width - particle.radius, vx := -particle.vx * s.restitution }
        else particle
      if particle.y - particle.radius < 0 then
        { particle with y := particle.radius, vy := -particle.vy * s.restitution }
      else if s.height < particle.y + particle.radius then
        { particle with y := s.height - particle.radius, vy := -particle.vy * s.restitution }
      else particle) }
  s2.handle_collisions

/-- Mirrors `ParticleSystem::update(dt)`:
`let actual_dt = if dt > 0.0 { dt } else { self.time_step }`. -/
def ParticleSystem.update (s : ParticleSystem) (dt : ℚ) : ParticleSystem :=
  s.stepWith (if 0 < dt then dt else s.time_step)

/-- Phase A of `update` as a standalone per-particle function (same statement
order as the source: gravity, then damping, then position). -/
def integrate (gx gy damping dt : ℚ) (p : Particle) : Particle :=
  let vx1 := p.vx + gx * dt
  let vy1 := p.vy + gy * dt
  let vx2 := vx1 * damping
  let vy2 := vy1 * damping
  { p with vx := vx2, vy := vy2, x := p.x + vx2 * dt, y := p.y + vy2 * dt }

/-- Phase A of `update` over the whole collection. -/
def ParticleSystem.integrateAll (s : ParticleSystem) (dt : ℚ) : ParticleSystem :=
  { s with particles := s.particles.map (integrate s.gravity_x s.gravity_y s.damping dt) }

/-- Phase B of `update` as a standalone per-particle function: x-axis clamp,
then y-axis clamp, each reversing and scaling the offending velocity
component by the restitution. -/
def applyBoundary (width height restitution : ℚ) (p : Particle) : Particle :=
  let p :=
    if p.x - p.radius < 0 then
      { p with x := p.radius, vx := -p.vx * restitution }
    else if width < p.x + p.radius then
      { p with x := width - p.radius, vx := -p.vx * restitution }
    else p
  if p.y - p.radius < 0 then
    { p with y := p.radius, vy := -p.vy * restitution }
  else if height < p.y + p.radius then
    { p with y := height - p.radius, vy := -p.vy * restitution }
  else p

/-- Phase B of `update` over the whole collection. -/
def ParticleSystem.boundaryAll (s : ParticleSystem) : ParticleSystem :=
  { s with particles := s.particles.map (applyBoundary s.width s.height s.restitution) }

/-- Phase A in the spec's wording (section 4.3): `velocity += gravity * dt`,
then `velocity *= damping`, then `position += velocity * dt`, each acting on
the velocity vector as a whole. -/
def specIntegrate (gx gy damping dt : ℚ) (p : Particle) : Particle :=
  let v1 := (p.vx + gx * dt, p.vy + gy * dt)
  let v2 := (v1.1 * damping, v1.2 * damping)
  { p with vx := v2.1, vy := v2.2, x := p.x + v2.1 * dt, y := p.y + v2.2 * dt }

/-- Exactness of the modelled square root at one processed pair: if the pair
passes the `0 < distance < min_distance` guard then `ratSqrt` returns the
true square root of the squared distance. -/
def pairSqrtOk (p1 p2 : Particle) : Bool :=
  let dx := p2.x - p1.x
  let dy := p2.y - p1.y
  let distance := ratSqrt (dx * dx + dy * dy)
  let min_distance := p1.radius + p2.radius
  if distance < min_distance ∧ 0 < distance then
    decide (distance * distance = dx * dx + dy * dy)
  else
    true

/-- Exactness of the modelled square root at the pair of indices `ij` of the
current particle list. -/
def pairOkAt (ps : List Particle) (ij : ℕ × ℕ) : Bool :=
  match ps[ij.1]?, ps[ij.2]? with
  | some p1, some p2 => pairSqrtOk p1 p2
  | _, _ => true

/-- Exactness of the modelled square root along a whole collision pass,
following the same sequential read/write-through order as the code. -/
def sqrtExactPass (restitution : ℚ) : List Particle → List (ℕ × ℕ) → Bool
  | _, [] => true
  | ps, ij :: rest =>
    pairOkAt ps ij && sqrtExactPass restitution (resolvePair restitution ps ij) rest

/-- Kinetic energy of one particle, the summand of `get_kinetic_energy`. -/
def particleEnergy (p : Particle) : ℚ :=
  0.5 * p.mass * (p.vx * p.vx + p.vy * p.vy)

/-! ### Basic structural lemmas -/

lemma stepWith_phases (s : ParticleSystem) (dt : ℚ) :
    s.stepWith dt = ((s.integrateAll dt).boundaryAll).handle_collisions := rfl

lemma ratSqrt_zero : ratSqrt 0 = 0 := by with_unfolding_all rfl

lemma collidePair_not_guard (r : ℚ) (p1 p2 : Particle)
    (hg : ¬ (ratSqrt ((p2.x - p1.x) * (p2.x - p1.x) + (p2.y - p1.y) * (p2.y - p1.y))
              < p1.radius + p2.radius
          ∧ 0 < ratSqrt ((p2.x - p1.x) * (p2.x - p1.x) + (p2.y - p1.y) * (p2.y - p1.y)))) :
    collidePair r p1 p2 = none := by
  simp only [collidePair]
  rw [if_neg hg]

lemma collidePair_coincident (r : ℚ) (p1 p2 : Particle)
    (hx : p1.x = p2.x) (hy : p1.y = p2.y) :
    collidePair r p1 p2 = none := by
  apply collidePair_not_guard
  rw [hx, hy]
  simp [ratSqrt_zero]

lemma resolvePair_of_none (r : ℚ) (ps : List Particle) (i j : ℕ) (p1 p2 : Particle)
    (h1 : ps[i]? = some p1) (h2 : ps[j]? = some p2)
    (hc : collidePair r p1 p2 = none) :
    resolvePair r ps (i, j) = ps := by
  simp only [resolvePair, h1, h2, hc]

/-! ### C8 -/

/-- C8: in the pairwise collision pass a pair is processed only when
`0 < distance < min_distance`; in particular a pair with exactly coincident
centers is skipped entirely, leaving the particle list unchanged. -/
theorem pair_skip_guard (r : ℚ) (ps : List Particle) (i j : ℕ) (p1 p2 : Particle)
    (h1 : ps[i]? = some p1) (h2 : ps[j]? = some p2) :
    (¬ (ratSqrt ((p2.x - p1.x) * (p2.x - p1.x) + (p2.y - p1.y) * (p2.y - p1.y))
          < p1.radius + p2.radius
        ∧ 0 < ratSqrt ((p2.x - p1.x) * (p2.x - p1.x) + (p2.y - p1.y) * (p2.y - p1.y)))
      → resolvePair r ps (i, j) = ps)
    ∧ (p1.x = p2.x → p1.y = p2.y → resolvePair r ps (i, j) = ps) :=
  ⟨fun hg => resolvePair_of_none r ps i j p1 p2 h1 h2 (collidePair_not_guard r p1 p2 hg),
   fun hx hy => resolvePair_of_none r ps i j p1 p2 h1 h2 (collidePair_coincident r p1 p2 hx hy)⟩

/-- Concrete particle used in the C8 witness. -/
def coincP : Particle := Particle.new 5 5 1 2 3 4

/-- C8 witness: two exactly coincident particles are left unchanged. -/
theorem pair_skip_guard_witness :
    resolvePair 0.8 [coincP, coincP] (0, 1) = [coincP, coincP] :=
  (pair_skip_guard 0.8 [coincP, coincP] 0 1 coincP coincP rfl rfl).2 rfl rfl

/-! ### C9 -/

/-- C9: for an index at or beyond the particle count, the three
index-addressed mutators leave the whole system state unchanged. -/
theorem index_mutators_oob (s : ParticleSystem) (i : ℕ) (x y vx vy fx fy : ℚ)
    (h : s.particles.length ≤ i) :
    s.set_particle_position i x y = s
    ∧ s.set_particle_velocity i vx vy = s
    ∧ s.add_force_to_particle i fx fy = s := by
  have hn : s.particles[i]? = none := List.getElem?_eq_none h
  refine ⟨?_, ?_, ?_⟩ <;>
    simp [ParticleSystem.set_particle_position, ParticleSystem.set_particle_velocity,
      ParticleSystem.add_force_to_particle, hn]

/-- C9 witness: index 0 on the empty system. -/
theorem index_mutators_oob_witness :
    (ParticleSystem.new 800 600).set_particle_position 0 1 2 = ParticleSystem.new 800 600
    ∧ (ParticleSystem.new 800 600).set_particle_velocity 0 3 4 = ParticleSystem.new 800 600
    ∧ (ParticleSystem.new 800 600).add_force_to_particle 0 5 6 = ParticleSystem.new 800 600 :=
  index_mutators_oob (ParticleSystem.new 800 600) 0 1 2 3 4 5 6 (Nat.le_refl 0)

/-! ### C7 -/

/-- C7: a positive `dt` is used as the effective step for this call only, a
non-positive `dt` falls back to the stored default, and the stored default
`time_step` is unchanged by the call. -/
theorem update_dt_choice (s : ParticleSystem) (dt : ℚ) :
    (0 < dt → s.update dt = s.stepWith dt)
    ∧ (dt ≤ 0 → s.update dt = s.stepWith s.time_step)
    ∧ (s.update dt).time_step = s.time_step := by
  refine ⟨fun h => ?_, fun h => ?_, rfl⟩
  · unfold ParticleSystem.update
    rw [if_pos h]
  · unfold ParticleSystem.update
    rw [if_neg (not_lt.mpr h)]

/-- C7 witness: a positive override and the non-positive fallback. -/
theorem update_dt_choice_witness :
    ((ParticleSystem.new 800 600).update (1/30) = (ParticleSystem.new 800 600).stepWith (1/30))
    ∧ ((ParticleSystem.new 800 600).update 0
        = (ParticleSystem.new 800 600).stepWith (ParticleSystem.new 800 600).time_step) :=
  ⟨(update_dt_choice (ParticleSystem.new 800 600) (1/30)).1 (by norm_num),
   (update_dt_choice (ParticleSystem.new 800 600) 0).2.1 (le_refl 0)⟩

/-! ### C2 -/

/-- C2: `update` is exactly phase A (integration of every particle, each by
gravity, then damping, then position) followed by phase B (boundary
containment of every particle) followed by phase C (the pairwise collision
pass), with the per-particle integration equal to the spec's sequence. -/
theorem update_phase_structure (s : ParticleSystem) (dt : ℚ) :
    s.update dt
      = ((s.integrateAll (if 0 < dt then dt else s.time_step)).boundaryAll).handle_collisions
    ∧ s.integrateAll dt
      = { s with particles := s.particles.map (specIntegrate s.gravity_x s.gravity_y s.damping dt) } :=
  ⟨rfl, rfl⟩

/-! ### C5 -/

/-- C5 counterexample: `new(10, 10)` stores the bounds unclamped, so the
minimum size of 100 does not hold immediately after construction. -/
theorem new_bounds_not_clamped :
    (ParticleSystem.new 10 10).width = 10 ∧ (ParticleSystem.new 10 10).height = 10
    ∧ ¬ (100 ≤ (ParticleSystem.new 10 10).width) := by
  refine ⟨rfl, rfl, ?_⟩
  show ¬ ((100 : ℚ) ≤ 10)
  norm_num

/-- C5 amended: the 100-unit minimum per axis is established by `set_bounds`
(which clamps each dimension to at least 100) and no other operation changes
the bounds; construction stores its arguments unclamped. -/
theorem bounds_min_after_set_bounds (s : ParticleSystem) (w h dt x y vx vy rad m : ℚ) (i : ℕ) :
    100 ≤ (s.set_bounds w h).width ∧ 100 ≤ (s.set_bounds w h).height
    ∧ (s.update dt).width = s.width ∧ (s.update dt).height = s.height
    ∧ ((s.add_particle x y vx vy rad m).1).width = s.width
    ∧ ((s.add_particle x y vx vy rad m).1).height = s.height
    ∧ (s.set_gravity x y).width = s.width ∧ (s.set_gravity x y).height = s.height
    ∧ (s.set_damping m).width = s.width ∧ (s.set_damping m).height = s.height
    ∧ (s.set_restitution m).width = s.width ∧ (s.set_restitution m).height = s.height
    ∧ (s.set_time_step dt).width = s.width ∧ (s.set_time_step dt).height = s.height
    ∧ (s.set_particle_position i x y).width = s.width
    ∧ (s.set_particle_position i x y).height = s.height
    ∧ (s.set_particle_velocity i vx vy).width = s.width
    ∧ (s.set_particle_velocity i vx vy).height = s.height
    ∧ (s.add_force_to_particle i x y).width = s.width
    ∧ (s.add_force_to_particle i x y).height = s.height
    ∧ s.clear_particles.width = s.width ∧ s.clear_particles.height = s.height := by
  refine ⟨le_max_right w 100, le_max_right h 100, rfl, rfl, rfl, rfl, rfl, rfl, rfl, rfl,
    rfl, rfl, rfl, rfl, ?_, ?_, ?_, ?_, ?_, ?_, rfl, rfl⟩ <;>
    cases hi : s.particles[i]? <;>
      simp [ParticleSystem.set_particle_position, ParticleSystem.set_particle_velocity,
        ParticleSystem.add_force_to_particle, hi]

/-! ### C6 -/

/-- C6: all configuration setters clamp rather than reject: damping and
restitution into `[0, 1]`, the time step into `[0.001, 0.1]`, each bounds
dimension to a minimum of 100; including the spec's concrete examples. -/
theorem setters_clamp (s : ParticleSystem) (d r t w h : ℚ) :
    (s.set_damping d).damping = min (max d 0) 1
    ∧ 0 ≤ (s.set_damping d).damping ∧ (s.set_damping d).damping ≤ 1
    ∧ (s.set_restitution r).restitution = min (max r 0) 1
    ∧ 0 ≤ (s.set_restitution r).restitution ∧ (s.set_restitution r).restitution ≤ 1
    ∧ (s.set_time_step t).time_step = min (max t 0.001) 0.1
    ∧ 0.001 ≤ (s.set_time_step t).time_step ∧ (s.set_time_step t).time_step ≤ 0.1
    ∧ (s.set_bounds w h).width = max w 100 ∧ (s.set_bounds w h).height = max h 100
    ∧ 100 ≤ (s.set_bounds w h).width ∧ 100 ≤ (s.set_bounds w h).height
    ∧ (s.set_damping (-1)).damping = 0 ∧ (s.set_damping 5).damping = 1
    ∧ (s.set_bounds 10 10).width = 100 ∧ (s.set_bounds 10 10).height = 100 := by
  refine ⟨rfl, le_min (le_max_right d 0) zero_le_one, min_le_right _ 1,
    rfl, le_min (le_max_right r 0) zero_le_one, min_le_right _ 1,
    rfl, le_min (le_max_right t 0.001) (by norm_num), min_le_right _ _,
    rfl, rfl, le_max_right w 100, le_max_right h 100, ?_, ?_, ?_, ?_⟩
  · show min (max (-1 : ℚ) 0) 1 = 0
    norm_num
  · show min (max (5 : ℚ) 0) 1 = 1
    norm_num [max_def, min_def]
  · show max (10 : ℚ) 100 = 100
    norm_num [max_def]
  · show max (10 : ℚ) 100 = 100
    norm_num [max_def]

/-! ### Boundary containment -/

lemma integrate_radius (gx gy d dt : ℚ) (p : Particle) :
    (integrate gx gy d dt p).radius = p.radius := rfl

lemma applyBoundary_radius (w h r : ℚ) (p : Particle) :
    (applyBoundary w h r p).radius = p.radius := by
  simp only [applyBoundary]
  split_ifs <;> rfl

lemma integrateAll_width (s : ParticleSystem) (dt : ℚ) : (s.integrateAll dt).width = s.width := rfl

lemma integrateAll_height (s : ParticleSystem) (dt : ℚ) : (s.integrateAll dt).height = s.height := rfl

lemma boundaryAll_width (s : ParticleSystem) : s.boundaryAll.width = s.width := rfl

lemma boundaryAll_height (s : ParticleSystem) : s.boundaryAll.height = s.height := rfl

lemma applyBoundary_containment (w h r : ℚ) (p : Particle)
    (hw : 2 * p.radius ≤ w) (hh : 2 * p.radius ≤ h) :
    p.radius ≤ (applyBoundary w h r p).x ∧ (applyBoundary w h r p).x ≤ w - p.radius
    ∧ p.radius ≤ (applyBoundary w h r p).y ∧ (applyBoundary w h r p).y ≤ h - p.radius := by
  simp only [applyBoundary]
  split_ifs <;> refine ⟨?_, ?_, ?_, ?_⟩ <;> simp_all only [not_lt] <;> simp_all <;> linarith

lemma boundaryAll_containment (s : ParticleSystem)
    (hb : ∀ p ∈ s.particles, 2 * p.radius ≤ s.width ∧ 2 * p.radius ≤ s.height) :
    ∀ q ∈ s.boundaryAll.particles,
      q.radius ≤ q.x ∧ q.x ≤ s.width - q.radius ∧ q.radius ≤ q.y ∧ q.y ≤ s.height - q.radius := by
  intro q hq
  simp only [ParticleSystem.boundaryAll, List.mem_map] at hq
  obtain ⟨p, hp, rfl⟩ := hq
  rw [applyBoundary_radius]
  exact applyBoundary_containment s.width s.height s.restitution p (hb p hp).1 (hb p hp).2

/-! ### C1: counterexample and amended containment -/

/-- Two overlapping resting particles next to the left wall; the collision
separation of phase C pushes the first one back across the wall. -/
def c1sys : ParticleSystem :=
  (((ParticleSystem.new 800 600).add_particle 5 300 0 0 5 1).1.add_particle 11 300 0 0 5 1).1

/-- The state of `c1sys` after one `update` with the default time step. -/
def c1post : ParticleSystem := c1sys.update (1/60)

/-- C1 counterexample: in `c1sys` every particle satisfies
`width, height >= 2*radius`, yet after `update` the first particle's center
(moved to x = 3 by the phase C separation, after phase B had already run)
lies closer than its radius to the left wall. -/
theorem boundary_containment_cex :
    (∀ p ∈ c1sys.particles, 2 * p.radius ≤ c1sys.width ∧ 2 * p.radius ≤ c1sys.height)
    ∧ ¬ (∀ p ∈ c1post.particles,
        p.radius ≤ p.x ∧ p.x ≤ c1post.width - p.radius
        ∧ p.radius ≤ p.y ∧ p.y ≤ c1post.height - p.radius) := by
  constructor
  · with_unfolding_all decide
  · with_unfolding_all decide

lemma containment_after_phases (s : ParticleSystem) (dt : ℚ)
    (hb : ∀ p ∈ s.particles, 2 * p.radius ≤ s.width ∧ 2 * p.radius ≤ s.height) :
    ∀ q ∈ ((s.integrateAll (if 0 < dt then dt else s.time_step)).boundaryAll).particles,
      q.radius ≤ q.x ∧ q.x ≤ s.width - q.radius ∧ q.radius ≤ q.y ∧ q.y ≤ s.height - q.radius := by
  have hb1 : ∀ p ∈ (s.integrateAll (if 0 < dt then dt else s.time_step)).particles,
      2 * p.radius ≤ (s.integrateAll (if 0 < dt then dt else s.time_step)).width
      ∧ 2 * p.radius ≤ (s.integrateAll (if 0 < dt then dt else s.time_step)).height := by
    intro p hp
    simp only [ParticleSystem.integrateAll, List.mem_map] at hp
    obtain ⟨p0, hp0, rfl⟩ := hp
    rw [integrate_radius, integrateAll_width, integrateAll_height]
    exact hb p0 hp0
  exact boundaryAll_containment _ hb1

/-- C1 amended: the containment invariant holds at the end of phase B
(boundary containment) of any `update` call — i.e. before the pairwise
collision pass, whose separation step can move a particle back outside the
world rectangle. -/
theorem boundary_containment_after_phase_b (s : ParticleSystem) (dt : ℚ)
    (hb : ∀ p ∈ s.particles, 2 * p.radius ≤ s.width ∧ 2 * p.radius ≤ s.height) :
    ∀ q ∈ ((s.integrateAll (if 0 < dt then dt else s.time_step)).boundaryAll).particles,
      q.radius ≤ q.x ∧ q.x ≤ s.width - q.radius ∧ q.radius ≤ q.y ∧ q.y ≤ s.height - q.radius :=
  containment_after_phases s dt hb

/-- C1 amended witness: the two-particle configuration of the counterexample
satisfies containment right after phase B. -/
theorem boundary_containment_after_phase_b_witness :
    (((c1sys.integrateAll
        (if 0 < (1/60 : ℚ) then (1/60 : ℚ) else c1sys.time_step)).boundaryAll).particles.all
      (fun q => decide (q.radius ≤ q.x ∧ q.x ≤ c1sys.width - q.radius
        ∧ q.radius ≤ q.y ∧ q.y ≤ c1sys.height - q.radius))) = true :=
  List.all_eq_true.mpr (fun q hq => decide_eq_true
    (boundary_containment_after_phase_b c1sys (1/60) (by with_unfolding_all decide) q hq))

/-! ### C10: single-particle containment after a full update -/

/-- C10: in a system with exactly one particle whose diameter fits the
bounds, the containment invariant holds after any `update` (the collision
pass is vacuous). -/
theorem single_particle_containment (s : ParticleSystem) (p : Particle) (dt : ℚ)
    (hp : s.particles = [p]) (hw : 2 * p.radius ≤ s.width) (hh : 2 * p.radius ≤ s.height) :
    ∀ q ∈ (s.update dt).particles,
      q.radius ≤ q.x ∧ q.x ≤ s.width - q.radius ∧ q.radius ≤ q.y ∧ q.y ≤ s.height - q.radius := by
  intro q hq
  have hl : ((s.integrateAll (if 0 < dt then dt else s.time_step)).boundaryAll).particles.length
      = 1 := by
    simp [ParticleSystem.boundaryAll, ParticleSystem.integrateAll, hp]
  have hfin : (s.update dt).particles
      = ((s.integrateAll (if 0 < dt then dt else s.time_step)).boundaryAll).particles := by
    show (((s.integrateAll (if 0 < dt then dt else s.time_step)).boundaryAll).handle_collisions).particles = _
    simp only [ParticleSystem.handle_collisions]
    rw [hl]
    rfl
  rw [hfin] at hq
  have hb : ∀ r ∈ s.particles, 2 * r.radius ≤ s.width ∧ 2 * r.radius ≤ s.height := by
    intro r hr
    rw [hp] at hr
    simp only [List.mem_singleton] at hr
    subst hr
    exact ⟨hw, hh⟩
  exact containment_after_phases s dt hb q hq

/-- Concrete single-particle system for the C10 witness. -/
def c10sys : ParticleSystem :=
  ((ParticleSystem.new 800 600).add_particle 400 10 0 0 5 1).1

/-- C10 witness: one particle, bounds 800 x 600, radius 5. -/
theorem single_particle_containment_witness :
    ((c10sys.update (1/60)).particles.all
      (fun q => decide (q.radius ≤ q.x ∧ q.x ≤ c10sys.width - q.radius
        ∧ q.radius ≤ q.y ∧ q.y ≤ c10sys.height - q.radius))) = true :=
  List.all_eq_true.mpr (fun q hq => decide_eq_true
    (single_particle_containment c10sys (Particle.new 400 10 0 0 5 1) (1/60)
      (by with_unfolding_all rfl)
      (by show (2 * 5 : ℚ) ≤ 800; norm_num)
      (by show (2 * 5 : ℚ) ≤ 600; norm_num) q hq))

/-! ### Phase A and B simplification lemmas -/

lemma integrate_free (dt : ℚ) (p : Particle) :
    integrate 0 0 1 dt p = { p with x := p.x + p.vx * dt, y := p.y + p.vy * dt } := by
  cases p
  simp [integrate]

lemma applyBoundary_id (w h r : ℚ) (p : Particle)
    (h1 : ¬ (p.x - p.radius < 0)) (h2 : ¬ (w < p.x + p.radius))
    (h3 : ¬ (p.y - p.radius < 0)) (h4 : ¬ (h < p.y + p.radius)) :
    applyBoundary w h r p = p := by
  simp only [applyBoundary]
  rw [if_neg h1, if_neg h2, if_neg h3, if_neg h4]

lemma integrateAll_restitution (s : ParticleSystem) (dt : ℚ) :
    (s.integrateAll dt).restitution = s.restitution := rfl

lemma boundaryAll_restitution (s : ParticleSystem) :
    s.boundaryAll.restitution = s.restitution := rfl

/-! ### Head-on exchange algebra -/

lemma headon_key (d dx dy v1x v1y v2x v2y : ℚ) (hdne : d ≠ 0)
    (hexact : d * d = dx * dx + dy * dy)
    (ha1 : v1x * dy = v1y * dx) (ha2 : v2x * dy = v2y * dx) :
    ((v2x - v1x) * (dx / d) + (v2y - v1y) * (dy / d)) * (dx / d) = v2x - v1x
    ∧ ((v2x - v1x) * (dx / d) + (v2y - v1y) * (dy / d)) * (dy / d) = v2y - v1y := by
  have h1 : ((v2x - v1x) * dx + (v2y - v1y) * dy) * dx = (v2x - v1x) * (d * d) := by
    linear_combination (-(v2x - v1x)) * hexact + dy * ha1 - dy * ha2
  have h2 : ((v2x - v1x) * dx + (v2y - v1y) * dy) * dy = (v2y - v1y) * (d * d) := by
    linear_combination (-(v2y - v1y)) * hexact - dx * ha1 + dx * ha2
  constructor
  · field_simp
    linear_combination h1
  · field_simp
    linear_combination h2

lemma resolvePair_headon (r : ℚ) (a b : Particle) (dx dy d : ℚ)
    (hdx : dx = b.x - a.x) (hdy : dy = b.y - a.y)
    (hd : d = ratSqrt (dx * dx + dy * dy))
    (hexact : d * d = dx * dx + dy * dy)
    (hd0 : 0 < d) (hover : d < a.radius + b.radius)
    (hrest : r = 1) (hmass : b.mass = a.mass) (hmpos : 0 < a.mass)
    (halign1 : a.vx * dy = a.vy * dx) (halign2 : b.vx * dy = b.vy * dx)
    (happroach : (b.vx - a.vx) * dx + (b.vy - a.vy) * dy < 0) :
    (resolvePair r [a, b] (0, 1)).map (fun q => (q.vx, q.vy)) = [(b.vx, b.vy), (a.vx, a.vy)] := by
  have hdne : d ≠ 0 := ne_of_gt hd0
  have hmne : a.mass + a.mass ≠ 0 := ne_of_gt (by linarith)
  obtain ⟨k1, k2⟩ := headon_key d dx dy a.vx a.vy b.vx b.vy hdne hexact halign1 halign2
  have hdvn : (b.vx - a.vx) * (dx / d) + (b.vy - a.vy) * (dy / d) < 0 := by
    have e : (b.vx - a.vx) * (dx / d) + (b.vy - a.vy) * (dy / d)
        = ((b.vx - a.vx) * dx + (b.vy - a.vy) * dy) / d := by ring
    rw [e]
    exact div_neg_of_neg_of_pos happroach hd0
  have e2 : ∀ t : ℚ, 2 * t / (a.mass + a.mass) * 1 * a.mass = t := by
    intro t
    field_simp
    ring
  simp only [resolvePair, List.getElem?_cons_zero, List.getElem?_cons_succ, collidePair]
  rw [← hdx, ← hdy, ← hd]
  rw [if_pos (⟨hover, hd0⟩ : d < a.radius + b.radius ∧ 0 < d), if_neg (not_lt.mpr hdvn.le)]
  rw [hrest, hmass]
  simp only [List.set_cons_zero, List.set_cons_succ, List.map_cons, List.map_nil,
    List.cons.injEq, Prod.mk.injEq, and_true]
  rw [e2]
  refine ⟨⟨?_, ?_⟩, ?_, ?_⟩ <;> linarith [k1, k2]

/-! ### C3 -/

/-- C3: two equal-mass particles, restitution 1, zero gravity, damping
disabled, overlapping at phase C entry and approaching head-on along the
line of centers (velocities parallel to the center line): one `update`
exchanges the two velocity vectors. -/
theorem equal_mass_headon_exchange
    (s : ParticleSystem) (p1 p2 : Particle) (dt dx dy d : ℚ)
    (hparts : s.particles = [p1, p2])
    (hgx : s.gravity_x = 0) (hgy : s.gravity_y = 0)
    (hdamp : s.damping = 1) (hrest : s.restitution = 1)
    (hmass : p2.mass = p1.mass) (hmpos : 0 < p1.mass)
    (hdtpos : 0 < dt)
    (hdx : dx = (p2.x + p2.vx * dt) - (p1.x + p1.vx * dt))
    (hdy : dy = (p2.y + p2.vy * dt) - (p1.y + p1.vy * dt))
    (hd : d = ratSqrt (dx * dx + dy * dy))
    (hexact : d * d = dx * dx + dy * dy)
    (hd0 : 0 < d) (hover : d < p1.radius + p2.radius)
    (hb1x : ¬ (p1.x + p1.vx * dt - p1.radius < 0))
    (hb1x2 : ¬ (s.width < p1.x + p1.vx * dt + p1.radius))
    (hb1y : ¬ (p1.y + p1.vy * dt - p1.radius < 0))
    (hb1y2 : ¬ (s.height < p1.y + p1.vy * dt + p1.radius))
    (hb2x : ¬ (p2.x + p2.vx * dt - p2.radius < 0))
    (hb2x2 : ¬ (s.width < p2.x + p2.vx * dt + p2.radius))
    (hb2y : ¬ (p2.y + p2.vy * dt - p2.radius < 0))
    (hb2y2 : ¬ (s.height < p2.y + p2.vy * dt + p2.radius))
    (halign1 : p1.vx * dy = p1.vy * dx) (halign2 : p2.vx * dy = p2.vy * dx)
    (happroach : (p2.vx - p1.vx) * dx + (p2.vy - p1.vy) * dy < 0) :
    (s.update dt).particles.map (fun q => (q.vx, q.vy))
      = [(p2.vx, p2.vy), (p1.vx, p1.vy)] := by
  have hdne : d ≠ 0 := ne_of_gt hd0
  have hudt : s.update dt = ((s.integrateAll dt).boundaryAll).handle_collisions := by
    show s.stepWith (if 0 < dt then dt else s.time_step) = _
    rw [if_pos hdtpos, stepWith_phases]
  have hint : (s.integrateAll dt).particles
      = [{ p1 with x := p1.x + p1.vx * dt, y := p1.y + p1.vy * dt },
         { p2 with x := p2.x + p2.vx * dt, y := p2.y + p2.vy * dt }] := by
    simp [ParticleSystem.integrateAll, hparts, hgx, hgy, hdamp, integrate_free]
  have hb1 : applyBoundary s.width s.height s.restitution
      { p1 with x := p1.x + p1.vx * dt, y := p1.y + p1.vy * dt }
      = { p1 with x := p1.x + p1.vx * dt, y := p1.y + p1.vy * dt } :=
    applyBoundary_id _ _ _ _ hb1x hb1x2 hb1y hb1y2
  have hb2 : applyBoundary s.width s.height s.restitution
      { p2 with x := p2.x + p2.vx * dt, y := p2.y + p2.vy * dt }
      = { p2 with x := p2.x + p2.vx * dt, y := p2.y + p2.vy * dt } :=
    applyBoundary_id _ _ _ _ hb2x hb2x2 hb2y hb2y2
  have hbnd : ((s.integrateAll dt).boundaryAll).particles
      = [{ p1 with x := p1.x + p1.vx * dt, y := p1.y + p1.vy * dt },
         { p2 with x := p2.x + p2.vx * dt, y := p2.y + p2.vy * dt }] := by
    simp only [ParticleSystem.boundaryAll, integrateAll_width, integrateAll_height,
      integrateAll_restitution, hint, List.map_cons, List.map_nil, hb1, hb2]
  have hfold : (s.update dt).particles
      = resolvePair s.restitution
          [{ p1 with x := p1.x + p1.vx * dt, y := p1.y + p1.vy * dt },
           { p2 with x := p2.x + p2.vx * dt, y := p2.y + p2.vy * dt }] (0, 1) := by
    rw [hudt]
    simp only [ParticleSystem.handle_collisions, boundaryAll_restitution,
      integrateAll_restitution]
    rw [hbnd]
    rfl
  rw [hfold]
  exact resolvePair_headon s.restitution _ _ dx dy d (by rw [hdx]) (by rw [hdy]) hd hexact
    hd0 hover hrest hmass hmpos halign1 halign2 happroach

/-- Two equal-mass particles overlapping head-on along the x-axis, restitution
1, zero gravity, damping 1: the C3 witness configuration. -/
def c3sys : ParticleSystem :=
  ((((((ParticleSystem.new 800 600).set_gravity 0 0).set_damping 1).set_restitution
      1).add_particle 100 300 50 0 5 1).1.add_particle 107 300 (-50) 0 5 1).1

/-- C3 witness: one `update` exchanges the two velocity vectors. -/
theorem equal_mass_headon_exchange_witness :
    (c3sys.update (1/60)).particles.map (fun q => (q.vx, q.vy)) = [(-50, 0), (50, 0)] :=
  equal_mass_headon_exchange c3sys (Particle.new 100 300 50 0 5 1)
    (Particle.new 107 300 (-50) 0 5 1) (1/60) (16/3) 0 (16/3)
    (by decide) (by decide) (by decide) (by decide) (by decide) (by decide) (by decide)
    (by with_unfolding_all decide) (by with_unfolding_all decide) (by with_unfolding_all decide)
    (by with_unfolding_all decide) (by with_unfolding_all decide) (by with_unfolding_all decide)
    (by with_unfolding_all decide) (by with_unfolding_all decide) (by with_unfolding_all decide)
    (by with_unfolding_all decide) (by with_unfolding_all decide) (by with_unfolding_all decide)
    (by with_unfolding_all decide) (by with_unfolding_all decide) (by with_unfolding_all decide)
    (by with_unfolding_all decide) (by with_unfolding_all decide) (by with_unfolding_all decide)

/-! ### Kinetic energy bookkeeping -/

lemma foldl_energy (l : List Particle) (a : ℚ) :
    l.foldl (fun total_energy particle =>
      total_energy + 0.5 * particle.mass *
        (particle.vx * particle.vx + particle.vy * particle.vy)) a
    = a + (l.map particleEnergy).sum := by
  induction l generalizing a with
  | nil => simp
  | cons p t ih =>
    simp only [List.foldl_cons, List.map_cons, List.sum_cons, ih, particleEnergy]
    ring

lemma ke_eq_sum (s : ParticleSystem) :
    s.get_kinetic_energy = (s.particles.map particleEnergy).sum := by
  unfold ParticleSystem.get_kinetic_energy
  rw [foldl_energy]
  ring

lemma sum_map_set (f : Particle → ℚ) :
    ∀ (l : List Particle) (i : ℕ) (p a : Particle), l[i]? = some p →
      ((l.set i a).map f).sum = (l.map f).sum - f p + f a := by
  intro l
  induction l with
  | nil =>
    intro i p a h
    simp at h
  | cons q t ih =>
    intro i p a h
    cases i with
    | zero =>
      simp only [List.getElem?_cons_zero, Option.some.injEq] at h
      subst h
      simp only [List.set_cons_zero, List.map_cons, List.sum_cons]
      ring
    | succ n =>
      simp only [List.getElem?_cons_succ] at h
      simp only [List.set_cons_succ, List.map_cons, List.sum_cons, ih n p a h]
      ring

/-! ### Energy dissipation of one impulse -/

lemma impulse_energy (m1 m2 r nx ny v1x v1y v2x v2y dvn j : ℚ)
    (hm1 : 0 < m1) (hm2 : 0 < m2) (hr0 : 0 ≤ r) (hr1 : r ≤ 1)
    (hunit : nx * nx + ny * ny = 1)
    (hdvn : dvn = (v2x - v1x) * nx + (v2y - v1y) * ny)
    (hdvn0 : dvn ≤ 0)
    (hj : j = 2 * dvn / (m1 + m2) * r) :
    0.5 * m1 * ((v1x + j * m2 * nx) * (v1x + j * m2 * nx)
        + (v1y + j * m2 * ny) * (v1y + j * m2 * ny))
    + 0.5 * m2 * ((v2x - j * m1 * nx) * (v2x - j * m1 * nx)
        + (v2y - j * m1 * ny) * (v2y - j * m1 * ny))
    ≤ 0.5 * m1 * (v1x * v1x + v1y * v1y) + 0.5 * m2 * (v2x * v2x + v2y * v2y) := by
  have hM : (0:ℚ) < m1 + m2 := by linarith
  have hMne : m1 + m2 ≠ 0 := ne_of_gt hM
  have hjM : j * (m1 + m2) = 2 * dvn * r := by
    rw [hj]
    field_simp
  have hjle : j ≤ 0 := by
    rw [hj]
    have h1 : 2 * dvn / (m1 + m2) ≤ 0 :=
      div_nonpos_of_nonpos_of_nonneg (by linarith) hM.le
    exact mul_nonpos_iff.mpr (Or.inr ⟨h1, hr0⟩)
  have hjdvn : 0 ≤ j * dvn := mul_nonneg_of_nonpos_of_nonpos hjle hdvn0
  have hexp :
      0.5 * m1 * ((v1x + j * m2 * nx) * (v1x + j * m2 * nx)
          + (v1y + j * m2 * ny) * (v1y + j * m2 * ny))
      + 0.5 * m2 * ((v2x - j * m1 * nx) * (v2x - j * m1 * nx)
          + (v2y - j * m1 * ny) * (v2y - j * m1 * ny))
      - (0.5 * m1 * (v1x * v1x + v1y * v1y) + 0.5 * m2 * (v2x * v2x + v2y * v2y))
      = j * dvn * (m1 * m2) * (r - 1) := by
    linear_combination (j * m1 * m2) * hdvn + (j * m1 * m2 / 2) * hjM
      + (j * j * m1 * m2 * (m1 + m2) / 2) * hunit
  have h1 : 0 ≤ j * dvn * (m1 * m2) := mul_nonneg hjdvn (mul_pos hm1 hm2).le
  have h2 : r - 1 ≤ 0 := by linarith
  nlinarith [hexp, h1, h2]

lemma collidePair_mass (r : ℚ) (p1 p2 q1 q2 : Particle)
    (hc : collidePair r p1 p2 = some (q1, q2)) :
    q1.mass = p1.mass ∧ q2.mass = p2.mass := by
  simp only [collidePair] at hc
  split_ifs at hc with hg hv <;>
    simp only [Option.some.injEq, Prod.mk.injEq] at hc
  · obtain ⟨h1, h2⟩ := hc
    rw [← h1, ← h2]
    exact ⟨rfl, rfl⟩
  · obtain ⟨h1, h2⟩ := hc
    rw [← h1, ← h2]
    exact ⟨rfl, rfl⟩

lemma collidePair_energy (r : ℚ) (p1 p2 q1 q2 : Particle)
    (hr0 : 0 ≤ r) (hr1 : r ≤ 1) (hm1 : 0 < p1.mass) (hm2 : 0 < p2.mass)
    (hok : pairSqrtOk p1 p2 = true)
    (hc : collidePair r p1 p2 = some (q1, q2)) :
    particleEnergy q1 + particleEnergy q2 ≤ particleEnergy p1 + particleEnergy p2 := by
  simp only [collidePair] at hc
  simp only [pairSqrtOk] at hok
  split_ifs at hc with hg hv
  · -- already separating: only positions change
    simp only [Option.some.injEq, Prod.mk.injEq] at hc
    obtain ⟨h1, h2⟩ := hc
    rw [← h1, ← h2]
    exact le_of_eq rfl
  · -- impulse applied
    rw [if_pos hg] at hok
    have hex : ratSqrt ((p2.x - p1.x) * (p2.x - p1.x) + (p2.y - p1.y) * (p2.y - p1.y))
        * ratSqrt ((p2.x - p1.x) * (p2.x - p1.x) + (p2.y - p1.y) * (p2.y - p1.y))
        = (p2.x - p1.x) * (p2.x - p1.x) + (p2.y - p1.y) * (p2.y - p1.y) :=
      of_decide_eq_true hok
    have hdpos : 0 < ratSqrt ((p2.x - p1.x) * (p2.x - p1.x) + (p2.y - p1.y) * (p2.y - p1.y)) :=
      hg.2
    have hdne := ne_of_gt hdpos
    have hunit :
        ((p2.x - p1.x) / ratSqrt ((p2.x - p1.x) * (p2.x - p1.x) + (p2.y - p1.y) * (p2.y - p1.y)))
          * ((p2.x - p1.x) / ratSqrt ((p2.x - p1.x) * (p2.x - p1.x) + (p2.y - p1.y) * (p2.y - p1.y)))
        + ((p2.y - p1.y) / ratSqrt ((p2.x - p1.x) * (p2.x - p1.x) + (p2.y - p1.y) * (p2.y - p1.y)))
          * ((p2.y - p1.y) / ratSqrt ((p2.x - p1.x) * (p2.x - p1.x) + (p2.y - p1.y) * (p2.y - p1.y)))
        = 1 := by
      field_simp
      linear_combination -hex
    simp only [Option.some.injEq, Prod.mk.injEq] at hc
    obtain ⟨h1, h2⟩ := hc
    rw [← h1, ← h2]
    simp only [particleEnergy]
    exact impulse_energy p1.mass p2.mass r _ _ p1.vx p1.vy p2.vx p2.vy _ _
      hm1 hm2 hr0 hr1 hunit rfl (not_lt.mp hv) rfl

lemma resolvePair_mass_pres (r : ℚ) (ps : List Particle) (ij : ℕ × ℕ)
    (hm : ∀ p ∈ ps, 0 < p.mass) : ∀ p ∈ resolvePair r ps ij, 0 < p.mass := by
  intro p hp
  rcases h1 : ps[ij.1]? with _ | p1 <;> rcases h2 : ps[ij.2]? with _ | p2 <;>
    simp only [resolvePair, h1, h2] at hp
  · exact hm p hp
  · exact hm p hp
  · exact hm p hp
  · rcases hc : collidePair r p1 p2 with _ | ⟨q1, q2⟩ <;> rw [hc] at hp
    · exact hm p hp
    · obtain ⟨hq1m, hq2m⟩ := collidePair_mass r p1 p2 q1 q2 hc
      rcases List.mem_or_eq_of_mem_set hp with hp2 | rfl
      · rcases List.mem_or_eq_of_mem_set hp2 with hp3 | rfl
        · exact hm p hp3
        · rw [hq1m]
          exact hm p1 (List.getElem?_mem h1)
      · rw [hq2m]
        exact hm p2 (List.getElem?_mem h2)

lemma resolvePair_energy (r : ℚ) (ps : List Particle) (ij : ℕ × ℕ)
    (hr0 : 0 ≤ r) (hr1 : r ≤ 1) (hm : ∀ p ∈ ps, 0 < p.mass)
    (hok : pairOkAt ps ij = true) :
    ((resolvePair r ps ij).map particleEnergy).sum ≤ (ps.map particleEnergy).sum := by
  rcases h1 : ps[ij.1]? with _ | p1 <;> rcases h2 : ps[ij.2]? with _ | p2 <;>
    simp only [resolvePair, h1, h2] <;> try exact le_refl _
  simp only [pairOkAt, h1, h2] at hok
  rcases hc : collidePair r p1 p2 with _ | ⟨q1, q2⟩
  · exact le_refl _
  · by_cases hij : ij.1 = ij.2
    · -- coincident indices would mean a coincident pair, which is skipped
      rw [hij] at h1
      have hpp : p1 = p2 := Option.some.inj (h1.symm.trans h2)
      rw [hpp, collidePair_coincident r p2 p2 rfl rfl] at hc
      cases hc
    · have hset2 : (ps.set ij.1 q1)[ij.2]? = some p2 := by
        rw [List.getElem?_set_ne hij]
        exact h2
      rw [sum_map_set particleEnergy _ _ p2 q2 hset2, sum_map_set particleEnergy _ _ p1 q1 h1]
      have he := collidePair_energy r p1 p2 q1 q2 hr0 hr1
        (hm p1 (List.getElem?_mem h1)) (hm p2 (List.getElem?_mem h2)) hok hc
      linarith

lemma foldl_resolve_energy (r : ℚ) (hr0 : 0 ≤ r) (hr1 : r ≤ 1) :
    ∀ (prs : List (ℕ × ℕ)) (ps : List Particle),
      (∀ p ∈ ps, 0 < p.mass) → sqrtExactPass r ps prs = true →
      ((prs.foldl (resolvePair r) ps).map particleEnergy).sum
        ≤ (ps.map particleEnergy).sum := by
  intro prs
  induction prs with
  | nil =>
    intro ps _ _
    exact le_refl _
  | cons ij rest ih =>
    intro ps hm hex
    simp only [sqrtExactPass, Bool.and_eq_true] at hex
    obtain ⟨hok, hex2⟩ := hex
    simp only [List.foldl_cons]
    exact le_trans (ih (resolvePair r ps ij) (resolvePair_mass_pres r ps ij hm) hex2)
      (resolvePair_energy r ps ij hr0 hr1 hm hok)

lemma integrate_mass (gx gy dm dt : ℚ) (p : Particle) :
    (integrate gx gy dm dt p).mass = p.mass := rfl

lemma applyBoundary_mass (w h r : ℚ) (p : Particle) :
    (applyBoundary w h r p).mass = p.mass := by
  simp only [applyBoundary]
  split_ifs <;> rfl

lemma integrate_energy_free (dt : ℚ) (p : Particle) :
    particleEnergy (integrate 0 0 1 dt p) = particleEnergy p := by
  rw [integrate_free]
  simp [particleEnergy]

set_option maxHeartbeats 1000000 in
lemma applyBoundary_energy (w h r : ℚ) (p : Particle) (hr0 : 0 ≤ r) (hr1 : r ≤ 1)
    (hm : 0 ≤ p.mass) :
    particleEnergy (applyBoundary w h r p) ≤ particleEnergy p := by
  have hrr : r * r ≤ 1 := by nlinarith
  have key : ∀ v : ℚ, -v * r * (-v * r) ≤ v * v := by
    intro v
    nlinarith [mul_self_nonneg v, hrr]
  simp only [applyBoundary]
  split_ifs <;> simp only [particleEnergy] <;> (try simp) <;>
    nlinarith [key p.vx, key p.vy, hm, mul_self_nonneg p.vx, mul_self_nonneg p.vy]

lemma map_energy_integrate (dt : ℚ) (l : List Particle) :
    ((l.map (integrate 0 0 1 dt)).map particleEnergy).sum = (l.map particleEnergy).sum := by
  induction l with
  | nil => rfl
  | cons p t ih =>
    simp only [List.map_cons, List.sum_cons, integrate_energy_free, ih]

lemma map_energy_boundary (w h r : ℚ) (l : List Particle) (hr0 : 0 ≤ r) (hr1 : r ≤ 1)
    (hm : ∀ p ∈ l, 0 < p.mass) :
    ((l.map (applyBoundary w h r)).map particleEnergy).sum ≤ (l.map particleEnergy).sum := by
  induction l with
  | nil => exact le_refl _
  | cons p t ih =>
    simp only [List.map_cons, List.sum_cons]
    have h1 := applyBoundary_energy w h r p hr0 hr1 (hm p (List.mem_cons_self p t)).le
    have h2 := ih (fun q hq => hm q (List.mem_cons_of_mem p hq))
    linarith

/-! ### C4 -/

/-- C4: with zero gravity, damping disabled (1), restitution in `[0, 1)`,
positive masses, and an exactly-representable square root at every pair the
collision pass processes, a full `update` does not increase the total kinetic
energy. -/
theorem energy_nonincrease (s : ParticleSystem) (dt : ℚ)
    (hgx : s.gravity_x = 0) (hgy : s.gravity_y = 0) (hdamp : s.damping = 1)
    (hr0 : 0 ≤ s.restitution) (hr1 : s.restitution < 1)
    (hm : ∀ p ∈ s.particles, 0 < p.mass)
    (hex : sqrtExactPass s.restitution
        ((s.integrateAll (if 0 < dt then dt else s.time_step)).boundaryAll).particles
        (pairList
          ((s.integrateAll (if 0 < dt then dt else s.time_step)).boundaryAll).particles.length)
        = true) :
    (s.update dt).get_kinetic_energy ≤ s.get_kinetic_energy := by
  have hu : s.update dt
      = (((s.integrateAll (if 0 < dt then dt else s.time_step)).boundaryAll)).handle_collisions :=
    rfl
  rw [hu, ke_eq_sum, ke_eq_sum]
  have hmA : ∀ p ∈ (s.integrateAll (if 0 < dt then dt else s.time_step)).particles,
      0 < p.mass := by
    intro p hp
    simp only [ParticleSystem.integrateAll, List.mem_map] at hp
    obtain ⟨q, hq, rfl⟩ := hp
    rw [integrate_mass]
    exact hm q hq
  have hmB : ∀ p ∈ ((s.integrateAll (if 0 < dt then dt else s.time_step)).boundaryAll).particles,
      0 < p.mass := by
    intro p hp
    simp only [ParticleSystem.boundaryAll, List.mem_map] at hp
    obtain ⟨q, hq, rfl⟩ := hp
    rw [applyBoundary_mass]
    exact hmA q hq
  have step1 :
      ((((s.integrateAll (if 0 < dt then dt else s.time_step)).boundaryAll).handle_collisions).particles.map
        particleEnergy).sum
      ≤ (((s.integrateAll (if 0 < dt then dt else s.time_step)).boundaryAll).particles.map
        particleEnergy).sum := by
    simp only [ParticleSystem.handle_collisions, boundaryAll_restitution, integrateAll_restitution]
    exact foldl_resolve_energy s.restitution hr0 hr1.le _ _ hmB hex
  have step2 :
      (((s.integrateAll (if 0 < dt then dt else s.time_step)).boundaryAll).particles.map
        particleEnergy).sum
      ≤ ((s.integrateAll (if 0 < dt then dt else s.time_step)).particles.map
        particleEnergy).sum := by
    simp only [ParticleSystem.boundaryAll, integrateAll_width, integrateAll_height,
      integrateAll_restitution]
    exact map_energy_boundary s.width s.height s.restitution _ hr0 hr1.le hmA
  have step3 :
      ((s.integrateAll (if 0 < dt then dt else s.time_step)).particles.map
        particleEnergy).sum
      = (s.particles.map particleEnergy).sum := by
    have : (s.integrateAll (if 0 < dt then dt else s.time_step)).particles
        = s.particles.map (integrate 0 0 1 (if 0 < dt then dt else s.time_step)) := by
      simp only [ParticleSystem.integrateAll, hgx, hgy, hdamp]
    rw [this, map_energy_integrate]
  calc ((((s.integrateAll (if 0 < dt then dt else s.time_step)).boundaryAll).handle_collisions).particles.map
        particleEnergy).sum
      ≤ (((s.integrateAll (if 0 < dt then dt else s.time_step)).boundaryAll).particles.map
        particleEnergy).sum := step1
    _ ≤ ((s.integrateAll (if 0 < dt then dt else s.time_step)).particles.map
        particleEnergy).sum := step2
    _ = (s.particles.map particleEnergy).sum := step3

/-- Two equal-mass particles overlapping head-on, zero gravity, damping 1,
default restitution 0.8: the C4 witness configuration. -/
def c4sys : ParticleSystem :=
  (((((ParticleSystem.new 800 600).set_gravity 0 0).set_damping
      1).add_particle 100 300 50 0 5 1).1.add_particle 107 300 (-50) 0 5 1).1

/-- C4 witness: kinetic energy drops from 2500 to 900 across the update. -/
theorem energy_nonincrease_witness :
    (c4sys.update (1/60)).get_kinetic_energy ≤ c4sys.get_kinetic_energy :=
  energy_nonincrease c4sys (1/60) (by decide) (by decide) (by decide)
    (by with_unfolding_all decide) (by with_unfolding_all decide) (by decide)
    (by with_unfolding_all decide)
